import Mathlib

/-!
Verification of the annotation-draft control logic in
`src/qslwidgets/src/react-image-labeler/components/ControlMenu.tsx`.
The data model follows the shapes that file consumes (`DraftState`,
`Config`, regions and label assignments); the operations are shallow
embeddings of the callbacks and the keyboard handler defined there.
-/

namespace QSL

/-- One option of a label type definition (`{name, displayName}`). -/
structure LabelOption where
  name : String
  displayName : String
deriving Repr, DecidableEq

/-- A label type definition as consumed by ControlMenu.tsx: `name`,
`displayName`, `options`, `multiple`, `freeform`, `required`, plus the
`hiderequired` and `layout` presentation fields used at lines 330-345. -/
structure LabelConfig where
  name : String
  displayName : String
  options : List LabelOption := []
  multiple : Bool := false
  freeform : Bool := false
  required : Bool := false
  hiderequired : Bool := false
  layout : String := "column"
deriving Repr, DecidableEq

/-- The three drawing modes (`draft.drawing.mode`). -/
inductive DrawingMode where
  | boxes
  | polygons
  | masks
deriving Repr, DecidableEq

/-- A label assignment is a JavaScript object mapping a label-type name to an
array of selected values; embedded as an association list with unique keys. -/
abbrev LabelAssignment := List (String × List String)

/-- A drawn region: its label assignment and its `readonly` flag (the only
fields ControlMenu.tsx reads besides presentation metadata). -/
structure Region where
  labels : LabelAssignment := []
  readonly : Bool := false
deriving Repr, DecidableEq

/-- The active-drawing slot `draft.drawing.active`: ControlMenu.tsx accesses
only its `region` field. -/
structure ActiveDrawState where
  region : Region
deriving Repr, DecidableEq

/-- Embedding of `draft.drawing`: mode, optional active region, and the mask brush
parameters `flood`, `threshold`, `radius`. -/
structure DrawingState where
  mode : DrawingMode
  active : Option ActiveDrawState := none
  flood : Bool := false
  threshold : Int := 0
  radius : Int := 1
deriving Repr, DecidableEq

/-- Embedding of `draft.labels`: the image-level assignment plus one committed region list
per drawing mode. -/
structure DraftLabels where
  image : LabelAssignment := []
  boxes : List Region := []
  polygons : List Region := []
  masks : List Region := []
deriving Repr, DecidableEq

/-- The annotation draft (`DraftState` in library/types): labels, drawing
sub-state, and the dirty flag. -/
structure DraftState where
  labels : DraftLabels
  drawing : DrawingState
  dirty : Bool := false
deriving Repr, DecidableEq

/-- The computed configuration `{image, regions}` after the `|| []`
defaulting at ControlMenu.tsx lines 112-115. -/
structure Config where
  image : List LabelConfig := []
  regions : List LabelConfig := []
deriving Repr, DecidableEq

/-- The externally supplied `config` prop, whose `image` and `regions` lists
may each be absent (`other.config?.image || []`). -/
structure ConfigInput where
  image : Option (List LabelConfig) := none
  regions : Option (List LabelConfig) := none
deriving Repr, DecidableEq

/-- Modelled from the spec: `shortcutify` lives in
`react-image-labeler/components/library/utils`, which is not part of the
sources provided; per the spec the Label Configuration Model is a pure
projection that preserves the caller-supplied order and the definitions'
fields (it only decorates display shortcuts), so on the fields the control
logic reads it is the identity. -/
def shortcutify (configs : List LabelConfig) : List LabelConfig := configs

/-- The `config` record computed at ControlMenu.tsx lines 112-115:
`{image: shortcutify(other.config?.image || []), regions: shortcutify(other.config?.regions || [])}`. -/
def computedConfig (c : ConfigInput) : Config :=
  { image := shortcutify (c.image.getD [])
    regions := shortcutify (c.regions.getD []) }

/-- JavaScript object property access with array default:
`labels[name] || []`. -/
def lookupLabels : LabelAssignment → String → List String
  | [], _ => []
  | (k, v) :: rest, n => if k == n then v else lookupLabels rest n

/-- The committed region list for a mode: `draft.labels[mode]`. -/
def regionsOf (l : DraftLabels) : DrawingMode → List Region
  | DrawingMode.boxes => l.boxes
  | DrawingMode.polygons => l.polygons
  | DrawingMode.masks => l.masks

/-- Computed-property update `{...draft.labels, [mode]: value}`. -/
def setRegionsOf (l : DraftLabels) : DrawingMode → List Region → DraftLabels
  | DrawingMode.boxes, r => { l with boxes := r }
  | DrawingMode.polygons, r => { l with polygons := r }
  | DrawingMode.masks, r => { l with masks := r }

/-- Embedding of `computedState.activeConfig` (ControlMenu.tsx lines 111-116): the
definition list for the current level, `regions` while a region is active,
`image` otherwise. -/
def activeConfigList (cfg : Config) (draft : DraftState) : List LabelConfig :=
  if draft.drawing.active.isSome then cfg.regions else cfg.image

/-- Embedding of `requiredFieldsFilled` (ControlMenu.tsx lines 146-158): every required
definition of the active level has a non-empty entry, checked against the
active region's labels while drawing and the image labels otherwise. -/
def requiredFieldsFilled (cfg : Config) (draft : DraftState) : Bool :=
  match draft.drawing.active with
  | some active =>
      (activeConfigList cfg draft).all fun c =>
        !c.required || (lookupLabels active.region.labels c.name).length > 0
  | none =>
      (activeConfigList cfg draft).all fun c =>
        !c.required || (lookupLabels draft.labels.image c.name).length > 0

/-- The validation predicate on an explicit definition list and assignment,
used to state ordering-independence. -/
def requiredSatisfiedOn (defs : List LabelConfig) (a : LabelAssignment) : Bool :=
  defs.all fun c => !c.required || (lookupLabels a c.name).length > 0

/-- The assignment the validation is evaluated against: the active region's
labels while drawing, the image-level labels otherwise. -/
def relevantLabels (draft : DraftState) : LabelAssignment :=
  match draft.drawing.active with
  | some active => active.region.labels
  | none => draft.labels.image

/-- Embedding of `finishRegion` (ControlMenu.tsx lines 159-181): throws when no region is
active; otherwise sets `dirty`, prepends the active region to the current
mode's list when `save` is true (`[] `-prepend when false), and clears the
active slot. -/
def finishRegion (save : Bool) (draft : DraftState) : Except String DraftState :=
  match draft.drawing.active with
  | none => Except.error "Called to finish region but no region is selected."
  | some active =>
      Except.ok
        { draft with
          dirty := true
          labels := setRegionsOf draft.labels draft.drawing.mode
            ((if save then [active.region] else []) ++
              regionsOf draft.labels draft.drawing.mode)
          drawing := { draft.drawing with active := none } }

/-- A keyboard event as the handler reads it: key string plus the four
modifier bits. -/
structure KeyEvent where
  key : String
  ctrlKey : Bool := false
  shiftKey : Bool := false
  altKey : Bool := false
  metaKey : Bool := false
deriving Repr, DecidableEq

/-- The `switch (event.key)` of the keyboard handler (ControlMenu.tsx lines
187-243): returns the toast emitted during resolution (the dirty-navigation
messages) and the resolved target button name, `none` when unresolved. -/
def resolveKey (draft : DraftState) (e : KeyEvent) : Option String × Option String :=
  if e.altKey then (none, none)
  else
    match e.key with
    | "A" => (none, if e.ctrlKey && e.shiftKey then some "selectNone" else none)
    | "a" => (none, if e.ctrlKey && !e.shiftKey then some "selectAll" else none)
    | "z" =>
        (none,
          if e.metaKey != e.ctrlKey then
            some (if draft.drawing.active.isSome then "undoRegion" else "undo")
          else none)
    | "ArrowRight" =>
        if e.ctrlKey || e.shiftKey then (none, none)
        else if draft.dirty then
          (some "Please save or reset your changes before advancing to next item.", none)
        else (none, some "next")
    | "ArrowLeft" =>
        if draft.dirty then
          (some "Please save or reset your changes before returning to previous item.", none)
        else (none, some "prev")
    | "Enter" =>
        (none,
          if e.ctrlKey || e.shiftKey then none
          else some (if draft.drawing.active.isSome then "finishRegion" else "save"))
    | "Backspace" =>
        (none,
          if e.ctrlKey || e.shiftKey then none
          else some (if draft.drawing.active.isSome then "clearRegion" else "delete"))
    | "Delete" =>
        (none,
          if e.ctrlKey || e.shiftKey then none
          else some (if draft.drawing.active.isSome then "clearRegion" else "delete"))
    | _ => (none, none)

/-- What the keyboard handler did: the toast message passed to `setToast`
(if any) and the target whose button it simulate-clicked (if any). -/
structure KeyboardOutcome where
  toast : Option String := none
  clicked : Option String := none
deriving Repr, DecidableEq

/-- The tail of the keyboard handler (ControlMenu.tsx lines 244-253): a
resolved `finishRegion` or `save` target with unsatisfied required fields
emits the rejection toast and clicks nothing; otherwise the resolved target
is clicked. -/
def handleKeyboard (cfg : Config) (draft : DraftState) (e : KeyEvent) : KeyboardOutcome :=
  let r := resolveKey draft e
  match r.2 with
  | some t =>
      if (t == "finishRegion" || t == "save") && !(requiredFieldsFilled cfg draft) then
        { toast := some "Please fill in all required fields.", clicked := none }
      else
        { toast := r.1, clicked := some t }
  | none => { toast := r.1, clicked := none }

/-- The draft mutation a simulated click on a target button causes
(ControlMenu.tsx lines 428-451): the finish button runs `finishRegion(true)`
and is disabled while required fields are unfilled; the clear button runs
`finishRegion(false)` and is disabled for a readonly region; every other
target invokes an external callback and leaves the draft alone. -/
def clickEffect (cfg : Config) (draft : DraftState) (t : String) : Except String DraftState :=
  if t == "finishRegion" then
    if requiredFieldsFilled cfg draft then finishRegion true draft
    else Except.ok draft
  else if t == "clearRegion" then
    if (match draft.drawing.active with
        | some active => active.region.readonly
        | none => false) then Except.ok draft
    else finishRegion false draft
  else Except.ok draft

/-- One keyboard event end to end: resolve, gate, then apply the clicked
button's draft effect (the handler itself never calls `setDraft`). -/
def keyboardStepDraft (cfg : Config) (draft : DraftState) (e : KeyEvent) :
    Except String DraftState :=
  match (handleKeyboard cfg draft e).clicked with
  | some t => clickEffect cfg draft t
  | none => Except.ok draft

/-- Embedding of `setLabels` (ControlMenu.tsx lines 257-283): sets `dirty`, and routes the
new assignment to the active region's labels while drawing, to the
image-level labels otherwise. -/
def setLabels (draft : DraftState) (current : LabelAssignment) : DraftState :=
  { draft with
    dirty := true
    labels :=
      match draft.drawing.active with
      | some _ => draft.labels
      | none => { draft.labels with image := current }
    drawing :=
      match draft.drawing.active with
      | some active =>
          { draft.drawing with
            active := some { active with region := { active.region with labels := current } } }
      | none => draft.drawing }

/-- The drawing-mode selector's `setLabels` callback (ControlMenu.tsx lines
319-327): replaces `draft.drawing.mode` with the selected mode and nothing
else -- in particular it does not touch `dirty`. -/
def setDrawingMode (draft : DraftState) (m : DrawingMode) : DraftState :=
  { draft with drawing := { draft.drawing with mode := m } }

/-- The mode selector's `disabled` prop (ControlMenu.tsx line 328):
`!!draft.drawing.active || disabled`. -/
def modeSelectorDisabled (draft : DraftState) (disabled : Bool) : Bool :=
  draft.drawing.active.isSome || disabled

/-- A mode-switch command as the user can issue it: the selector accepts
input only while enabled, so a disabled selector leaves the draft alone. -/
def setModeCommand (draft : DraftState) (disabled : Bool) (m : DrawingMode) : DraftState :=
  if modeSelectorDisabled draft disabled then draft else setDrawingMode draft m

/-- The flood checkbox's `onChange` (ControlMenu.tsx lines 369-377): updates
`flood` only in masks mode, and never touches `dirty`. -/
def setFlood (draft : DraftState) (flood : Bool) : DraftState :=
  { draft with
    drawing :=
      if draft.drawing.mode == DrawingMode.masks then { draft.drawing with flood := flood }
      else draft.drawing }

/-- The threshold slider's `onValueChange` (ControlMenu.tsx lines 391-399):
replaces `threshold` and never touches `dirty`. -/
def setThreshold (draft : DraftState) (value : Int) : DraftState :=
  { draft with drawing := { draft.drawing with threshold := value } }

/-- The radius slider's `onValueChange` (ControlMenu.tsx lines 410-418):
replaces `radius` and never touches `dirty`. -/
def setRadius (draft : DraftState) (value : Int) : DraftState :=
  { draft with drawing := { draft.drawing with radius := value } }

/-- The per-level configuration editing: image or region level. -/
inductive ConfigLevel where
  | image
  | regions
deriving Repr, DecidableEq

/-- Read one level's definition list (`computedState.config[level]`). -/
def Config.atLevel (cfg : Config) : ConfigLevel → List LabelConfig
  | ConfigLevel.image => cfg.image
  | ConfigLevel.regions => cfg.regions

/-- Replace one level's definition list (`{...computedState.config, [level]: value}`). -/
def Config.withLevel (cfg : Config) : ConfigLevel → List LabelConfig → Config
  | ConfigLevel.image, l => { cfg with image := l }
  | ConfigLevel.regions, l => { cfg with regions := l }

/-- The `ConfigEditor` `onSave` callback (ControlMenu.tsx lines 639-658):
adding (`stateIndex` null) throws on a duplicate name at the same level;
otherwise the new definition is spliced at `stateIndex`, or at the end when
adding, and the updated configuration is handed to `onSaveConfig`. -/
def configEditorSave (stateIndex : Option Nat) (cfg : Config)
    (newLabelConfig : LabelConfig) (level : ConfigLevel) : Except String Config :=
  if stateIndex.isNone &&
      (cfg.atLevel level).any (fun c => c.name == newLabelConfig.name) then
    Except.error "User attempted to add a config with the name of an existing config."
  else
    Except.ok (cfg.withLevel level
      ((cfg.atLevel level).take (match stateIndex with
          | none => (cfg.atLevel level).length
          | some i => i) ++
        [newLabelConfig] ++
        (cfg.atLevel level).drop ((match stateIndex with
          | none => (cfg.atLevel level).length
          | some i => i) + 1)))

/-! Concrete instances used by the witness theorems. -/

/-- A required image-level definition named `quality`. -/
def defQuality : LabelConfig :=
  { name := "quality", displayName := "Quality", required := true }

/-- An optional definition named `notes`. -/
def defNotes : LabelConfig := { name := "notes", displayName := "Notes" }

/-- A satisfied assignment listing `quality` before `notes`. -/
def assignmentA : LabelAssignment := [("quality", ["good"]), ("notes", [])]

/-- The same assignment with its keys in the opposite order. -/
def assignmentB : LabelAssignment := [("notes", []), ("quality", ["good"])]

/-- A configuration with one required image-level definition. -/
def cfgQuality : Config := { image := [defQuality] }

/-- The empty configuration. -/
def emptyConfig : Config := {}

/-- An idle draft with no labels filled in. -/
def draftCleanIdle : DraftState :=
  { labels := {}, drawing := { mode := DrawingMode.boxes } }

/-- An idle, unlabelled draft marked dirty. -/
def draftDirtyIdle : DraftState :=
  { labels := {}, drawing := { mode := DrawingMode.boxes }, dirty := true }

/-- A readonly region carrying a filled label. -/
def regionRO : Region := { labels := [("quality", ["good"])], readonly := true }

/-- A draft in boxes mode whose active region is readonly. -/
def draftROActive : DraftState :=
  { labels := {}
    drawing := { mode := DrawingMode.boxes, active := some { region := regionRO } } }

/-- A configuration holding `quality` at image level and `notes` at region
level, to exercise the per-level uniqueness check. -/
def cfgDup : Config := { image := [defQuality], regions := [defNotes] }

/-- A plain Enter key event with no modifiers. -/
def enterEvent : KeyEvent := { key := "Enter" }

/-- A plain ArrowRight key event with no modifiers. -/
def arrowRightEvent : KeyEvent := { key := "ArrowRight" }

/-- A plain ArrowLeft key event with no modifiers. -/
def arrowLeftEvent : KeyEvent := { key := "ArrowLeft" }

/-! Helper lemmas. -/

/-- Association-list lookup is invariant under permutation when keys are
unique, matching JavaScript object key lookup. -/
theorem lookupLabels_congr_of_perm {a b : LabelAssignment} (hp : a.Perm b)
    (hnd : (a.map Prod.fst).Nodup) (n : String) :
    lookupLabels a n = lookupLabels b n := by
  induction hp with
  | nil => rfl
  | cons x h ih =>
      obtain ⟨k, v⟩ := x
      simp only [List.map_cons, List.nodup_cons] at hnd
      simp only [lookupLabels]
      split
      · rfl
      · exact ih hnd.2
  | swap x y l =>
      obtain ⟨k₁, v₁⟩ := x
      obtain ⟨k₂, v₂⟩ := y
      simp only [List.map_cons, List.nodup_cons, List.mem_cons] at hnd
      have hne : k₂ ≠ k₁ := fun h => hnd.1 (Or.inl h)
      simp only [lookupLabels]
      by_cases h1 : k₂ == n
      · have h1' : k₂ = n := by simpa using h1
        have h2 : ¬(k₁ == n) := by
          simp only [beq_iff_eq]
          intro h2'
          exact hne (h1'.trans h2'.symm)
        simp [h1, h2]
      · simp [h1]
  | trans h1 _ ih1 ih2 =>
      exact (ih1 hnd).trans (ih2 ((h1.map Prod.fst).nodup hnd))

/-- The validation predicate only reads the assignment through lookups, so it
is invariant under key reordering. -/
theorem requiredSatisfiedOn_congr_of_perm (defs : List LabelConfig)
    {a b : LabelAssignment} (hp : a.Perm b) (hnd : (a.map Prod.fst).Nodup) :
    requiredSatisfiedOn defs a = requiredSatisfiedOn defs b := by
  induction defs with
  | nil => rfl
  | cons c rest ih =>
      simp only [requiredSatisfiedOn, List.all_cons] at ih ⊢
      rw [lookupLabels_congr_of_perm hp hnd c.name, ih]

/-- The source's two branches both evaluate the validation predicate on the
active level's definitions and the currently relevant assignment. -/
theorem requiredFieldsFilled_eq (cfg : Config) (draft : DraftState) :
    requiredFieldsFilled cfg draft =
      requiredSatisfiedOn (activeConfigList cfg draft) (relevantLabels draft) := by
  cases h : draft.drawing.active <;>
    simp [requiredFieldsFilled, requiredSatisfiedOn, relevantLabels, h]

/-- Pointwise characterisation of the validation predicate. -/
theorem requiredSatisfiedOn_iff (defs : List LabelConfig) (a : LabelAssignment) :
    requiredSatisfiedOn defs a = true ↔
      ∀ c ∈ defs, c.required = true → lookupLabels a c.name ≠ [] := by
  unfold requiredSatisfiedOn
  rw [List.all_eq_true]
  refine forall_congr' fun c => forall_congr' fun _ => ?_
  cases hr : c.required <;> simp [List.length_pos]

/-- Reading back the region list just written for a mode. -/
theorem regionsOf_setRegionsOf (l : DraftLabels) (m : DrawingMode) (r : List Region) :
    regionsOf (setRegionsOf l m r) m = r := by
  cases m <;> rfl

/-- Writing one mode's region list leaves every other mode's list alone. -/
theorem regionsOf_setRegionsOf_ne (l : DraftLabels) {m m' : DrawingMode}
    (r : List Region) (h : m' ≠ m) :
    regionsOf (setRegionsOf l m r) m' = regionsOf l m' := by
  cases m <;> cases m' <;> simp_all [setRegionsOf, regionsOf]

/-- Writing a region list never touches the image-level assignment. -/
theorem image_setRegionsOf (l : DraftLabels) (m : DrawingMode) (r : List Region) :
    (setRegionsOf l m r).image = l.image := by
  cases m <;> rfl

/-! Claim theorems. -/

/-- C1: the required-fields validation is true iff every required definition
of the active level has a non-empty entry in the currently relevant
assignment (the active region's labels while a region is being drawn, the
image-level labels otherwise), and the predicate is independent of the
assignment's key ordering. -/
theorem requiredFields_validation_correct :
    (∀ cfg draft, requiredFieldsFilled cfg draft = true ↔
      ∀ c ∈ activeConfigList cfg draft, c.required = true →
        lookupLabels (relevantLabels draft) c.name ≠ []) ∧
    (∀ cfg draft, requiredFieldsFilled cfg draft =
      requiredSatisfiedOn (activeConfigList cfg draft) (relevantLabels draft)) ∧
    (∀ defs (a b : LabelAssignment), a.Perm b → (a.map Prod.fst).Nodup →
      requiredSatisfiedOn defs a = requiredSatisfiedOn defs b) := by
  refine ⟨fun cfg draft => ?_, requiredFieldsFilled_eq,
    fun defs a b hp hnd => requiredSatisfiedOn_congr_of_perm defs hp hnd⟩
  rw [requiredFieldsFilled_eq]
  exact requiredSatisfiedOn_iff _ _

/-- Witness for C1 at a concrete configuration: the satisfied assignment
validates, and reordering its keys does not change the verdict. -/
theorem requiredFields_validation_correct_witness :
    requiredSatisfiedOn [defQuality, defNotes] assignmentA =
      requiredSatisfiedOn [defQuality, defNotes] assignmentB ∧
    (requiredFieldsFilled cfgQuality draftCleanIdle = true ↔
      ∀ c ∈ activeConfigList cfgQuality draftCleanIdle, c.required = true →
        lookupLabels (relevantLabels draftCleanIdle) c.name ≠ []) :=
  ⟨requiredFields_validation_correct.2.2 [defQuality, defNotes] assignmentA
      assignmentB (by decide) (by decide),
    requiredFields_validation_correct.1 cfgQuality draftCleanIdle⟩

/-- C9: invoking `finishRegion` with no active region throws (an
`Except.error` in the embedding) instead of producing a draft. -/
theorem finishRegion_no_active_throws (save : Bool) (draft : DraftState)
    (h : draft.drawing.active = none) :
    finishRegion save draft =
      Except.error "Called to finish region but no region is selected." := by
  simp [finishRegion, h]

/-- Witness for C9: finishing on a concrete idle draft throws. -/
theorem finishRegion_no_active_throws_witness :
    finishRegion true draftCleanIdle =
      Except.error "Called to finish region but no region is selected." :=
  finishRegion_no_active_throws true draftCleanIdle rfl

/-- C8: adding a definition whose name already exists at the same level
fails with the duplicate-name error; adding with a fresh name at a level
appends it (so the same name at the other level is accepted, since only the
target level is consulted); a non-null index replaces in place with no
uniqueness check. -/
theorem configEditor_name_uniqueness (cfg : Config) (d : LabelConfig)
    (lvl : ConfigLevel) :
    ((cfg.atLevel lvl).any (fun c => c.name == d.name) = true →
      configEditorSave none cfg d lvl =
        Except.error "User attempted to add a config with the name of an existing config.") ∧
    ((cfg.atLevel lvl).any (fun c => c.name == d.name) = false →
      configEditorSave none cfg d lvl =
        Except.ok (cfg.withLevel lvl (cfg.atLevel lvl ++ [d]))) ∧
    (∀ i, i < (cfg.atLevel lvl).length →
      configEditorSave (some i) cfg d lvl =
        Except.ok (cfg.withLevel lvl ((cfg.atLevel lvl).set i d))) := by
  refine ⟨fun h => ?_, fun h => ?_, fun i hi => ?_⟩
  · simp [configEditorSave, h]
  · simp [configEditorSave, h, List.take_length, List.drop_eq_nil_of_le]
  · simp only [configEditorSave, Option.isNone_some, Bool.false_and,
      Bool.false_eq_true, if_false, Except.ok.injEq]
    rw [List.set_eq_take_cons_drop _ hi]
    simp

/-- Witness for C8 on a concrete configuration with `quality` at image level
and `notes` at region level: adding `quality` again at image level throws,
adding it at region level succeeds, and index-0 editing at image level
replaces in place. -/
theorem configEditor_name_uniqueness_witness :
    configEditorSave none cfgDup defQuality ConfigLevel.image =
      Except.error "User attempted to add a config with the name of an existing config." ∧
    configEditorSave none cfgDup defQuality ConfigLevel.regions =
      Except.ok (cfgDup.withLevel ConfigLevel.regions
        (cfgDup.atLevel ConfigLevel.regions ++ [defQuality])) ∧
    configEditorSave (some 0) cfgDup defQuality ConfigLevel.image =
      Except.ok (cfgDup.withLevel ConfigLevel.image
        ((cfgDup.atLevel ConfigLevel.image).set 0 defQuality)) :=
  ⟨(configEditor_name_uniqueness cfgDup defQuality ConfigLevel.image).1 (by decide),
    (configEditor_name_uniqueness cfgDup defQuality ConfigLevel.regions).2.1 (by decide),
    (configEditor_name_uniqueness cfgDup defQuality ConfigLevel.image).2.2 0 (by decide)⟩

/-- C2: with unsatisfied required fields, an unmodified Enter (the
commit-class command, resolving to save or finishRegion) clicks nothing and
emits exactly the toast "Please fill in all required fields.", and the draft
after the event is the draft before it. -/
theorem commit_rejected_when_required_unfilled (cfg : Config) (draft : DraftState)
    (e : KeyEvent) (hk : e.key = "Enter") (halt : e.altKey = false)
    (hctrl : e.ctrlKey = false) (hshift : e.shiftKey = false)
    (hreq : requiredFieldsFilled cfg draft = false) :
    handleKeyboard cfg draft e =
      { toast := some "Please fill in all required fields.", clicked := none } ∧
    keyboardStepDraft cfg draft e = Except.ok draft := by
  refine ⟨?_, ?_⟩ <;>
    cases h : draft.drawing.active <;>
      simp [handleKeyboard, keyboardStepDraft, resolveKey, hk, halt, hctrl,
        hshift, hreq, h]

/-- Witness for C2: Enter on an empty idle draft under a required `quality`
definition is rejected with the toast and leaves the draft unchanged. -/
theorem commit_rejected_when_required_unfilled_witness :
    handleKeyboard cfgQuality draftCleanIdle enterEvent =
      { toast := some "Please fill in all required fields.", clicked := none } ∧
    keyboardStepDraft cfgQuality draftCleanIdle enterEvent =
      Except.ok draftCleanIdle :=
  commit_rejected_when_required_unfilled cfgQuality draftCleanIdle enterEvent
    rfl rfl rfl rfl (by decide)

/-- C4: an Enter key event with no ctrl, shift, or alt modifiers resolves to
the save target while idle and to the finishRegion target while a region is
active; and the finishRegion target, when validation passes, applies
`finishRegion` with commit = true. -/
theorem enter_resolution (cfg : Config) (draft : DraftState) (e : KeyEvent)
    (hk : e.key = "Enter") (halt : e.altKey = false) (hctrl : e.ctrlKey = false)
    (hshift : e.shiftKey = false) :
    (resolveKey draft e).2 =
      some (if draft.drawing.active.isSome then "finishRegion" else "save") ∧
    (requiredFieldsFilled cfg draft = true →
      clickEffect cfg draft "finishRegion" = finishRegion true draft) := by
  refine ⟨by simp [resolveKey, hk, halt, hctrl, hshift], fun h => ?_⟩
  simp [clickEffect, h]

/-- Witness for C4: Enter on a concrete idle draft resolves to save, and the
finishRegion target commits with commit = true when validation passes. -/
theorem enter_resolution_witness :
    (resolveKey draftCleanIdle enterEvent).2 =
      some (if draftCleanIdle.drawing.active.isSome then "finishRegion" else "save") ∧
    clickEffect emptyConfig draftCleanIdle "finishRegion" =
      finishRegion true draftCleanIdle :=
  ⟨(enter_resolution emptyConfig draftCleanIdle enterEvent rfl rfl rfl rfl).1,
    (enter_resolution emptyConfig draftCleanIdle enterEvent rfl rfl rfl rfl).2
      (by decide)⟩

/-- C5: on a dirty draft, ArrowRight (without ctrl or shift) and ArrowLeft
resolve to the navigation targets but are not dispatched; each emits its
blocking toast and clicks nothing. -/
theorem navigation_blocked_when_dirty (cfg : Config) (draft : DraftState)
    (e : KeyEvent) (hdirty : draft.dirty = true) (halt : e.altKey = false) :
    (e.key = "ArrowRight" → e.ctrlKey = false → e.shiftKey = false →
      handleKeyboard cfg draft e =
        { toast := some "Please save or reset your changes before advancing to next item.",
          clicked := none }) ∧
    (e.key = "ArrowLeft" →
      handleKeyboard cfg draft e =
        { toast := some "Please save or reset your changes before returning to previous item.",
          clicked := none }) := by
  refine ⟨fun hk hctrl hshift => ?_, fun hk => ?_⟩ <;>
    simp [handleKeyboard, resolveKey, hk, halt, hdirty, *]

/-- Witness for C5: both arrow keys on a concrete dirty draft toast and click
nothing. -/
theorem navigation_blocked_when_dirty_witness :
    handleKeyboard emptyConfig draftDirtyIdle arrowRightEvent =
      { toast := some "Please save or reset your changes before advancing to next item.",
        clicked := none } ∧
    handleKeyboard emptyConfig draftDirtyIdle arrowLeftEvent =
      { toast := some "Please save or reset your changes before returning to previous item.",
        clicked := none } :=
  ⟨(navigation_blocked_when_dirty emptyConfig draftDirtyIdle arrowRightEvent
      rfl rfl).1 rfl rfl rfl,
    (navigation_blocked_when_dirty emptyConfig draftDirtyIdle arrowLeftEvent
      rfl rfl).2 rfl⟩

/-- C10: when the active level's definition list is absent or empty, the
required-fields validation is vacuously true, so an unmodified Enter is
never validation-blocked: no toast is emitted and the resolved commit target
is clicked. -/
theorem empty_config_never_blocks (ci : ConfigInput) (draft : DraftState)
    (e : KeyEvent)
    (hempty : activeConfigList (computedConfig ci) draft = []) :
    requiredFieldsFilled (computedConfig ci) draft = true ∧
    (e.key = "Enter" → e.altKey = false → e.ctrlKey = false → e.shiftKey = false →
      handleKeyboard (computedConfig ci) draft e =
        { toast := none,
          clicked := some (if draft.drawing.active.isSome then "finishRegion" else "save") }) := by
  have hreq : requiredFieldsFilled (computedConfig ci) draft = true := by
    rw [requiredFieldsFilled_eq, hempty]
    rfl
  refine ⟨hreq, fun hk halt hctrl hshift => ?_⟩
  cases h : draft.drawing.active <;>
    simp [handleKeyboard, resolveKey, hk, halt, hctrl, hshift, hreq, h]

/-- Witness for C10: with the config prop entirely absent, Enter on an idle
draft emits no toast and clicks save. -/
theorem empty_config_never_blocks_witness :
    requiredFieldsFilled (computedConfig {}) draftCleanIdle = true ∧
    handleKeyboard (computedConfig {}) draftCleanIdle enterEvent =
      { toast := none,
        clicked := some (if draftCleanIdle.drawing.active.isSome then "finishRegion" else "save") } :=
  ⟨(empty_config_never_blocks {} draftCleanIdle enterEvent rfl).1,
    (empty_config_never_blocks {} draftCleanIdle enterEvent rfl).2 rfl rfl rfl rfl⟩

/-- C3 counterexample: `finishRegion` contains no readonly check, so a
readonly active region committed from an empty boxes list IS added to the
committed list, refuting "a readonly region is only deselected, never
added". -/
theorem finishRegion_readonly_is_added :
    draftROActive.drawing.active = some { region := regionRO } ∧
    regionRO.readonly = true ∧
    regionsOf draftROActive.labels DrawingMode.boxes = [] ∧
    (finishRegion true draftROActive).map
        (fun d => regionsOf d.labels DrawingMode.boxes) =
      Except.ok [regionRO] :=
  ⟨rfl, rfl, rfl, rfl⟩

/-- C3 amended: for every draft with an active region, `finishRegion` clears
the active slot, sets dirty, and leaves the mode and the image labels alone;
with commit = true the active region is prepended to the current mode's
committed list regardless of its readonly flag, with commit = false no
committed list changes; lists of other modes are always untouched. -/
theorem finishRegion_transition (draft : DraftState) (active : ActiveDrawState)
    (h : draft.drawing.active = some active) (commit : Bool) :
    (finishRegion commit draft).map (fun d => d.drawing.active) =
      Except.ok none ∧
    (finishRegion commit draft).map (fun d => d.dirty) = Except.ok true ∧
    (finishRegion commit draft).map (fun d => d.drawing.mode) =
      Except.ok draft.drawing.mode ∧
    (finishRegion commit draft).map
        (fun d => regionsOf d.labels draft.drawing.mode) =
      Except.ok ((if commit then [active.region] else []) ++
        regionsOf draft.labels draft.drawing.mode) ∧
    (∀ m, m ≠ draft.drawing.mode →
      (finishRegion commit draft).map (fun d => regionsOf d.labels m) =
        Except.ok (regionsOf draft.labels m)) ∧
    (finishRegion commit draft).map (fun d => d.labels.image) =
      Except.ok draft.labels.image := by
  refine ⟨?_, ?_, ?_, ?_, fun m hm => ?_, ?_⟩
  case refine_5 =>
    simp [finishRegion, h, Except.map, regionsOf_setRegionsOf_ne _ _ hm]
  all_goals
    simp [finishRegion, h, Except.map, regionsOf_setRegionsOf, image_setRegionsOf]

/-- Witness for C3 amended: committing the concrete readonly draft sets
dirty, prepends to the boxes list, and leaves the polygons list alone. -/
theorem finishRegion_transition_witness :
    (finishRegion true draftROActive).map (fun d => d.dirty) = Except.ok true ∧
    (finishRegion true draftROActive).map
        (fun d => regionsOf d.labels DrawingMode.polygons) =
      Except.ok (regionsOf draftROActive.labels DrawingMode.polygons) :=
  ⟨(finishRegion_transition draftROActive { region := regionRO } rfl true).2.1,
    (finishRegion_transition draftROActive { region := regionRO } rfl
        true).2.2.2.2.1 DrawingMode.polygons (by decide)⟩

/-- C6 counterexample: an enabled mode switch and a threshold change each
produce a draft different from the starting one, yet leave dirty = false,
refuting "every transition that changes the draft sets dirty = true". -/
theorem dirty_not_set_by_mode_switch :
    draftCleanIdle.dirty = false ∧
    setModeCommand draftCleanIdle false DrawingMode.polygons ≠ draftCleanIdle ∧
    (setModeCommand draftCleanIdle false DrawingMode.polygons).dirty = false ∧
    setThreshold draftCleanIdle 5 ≠ draftCleanIdle ∧
    (setThreshold draftCleanIdle 5).dirty = false := by
  refine ⟨rfl, by decide, rfl, by decide, rfl⟩

/-- C6 amended: the drawing-mode switch and the flood, threshold, and radius
setters leave the dirty flag exactly as it was; the transitions that set
dirty = true are the label update (and finishRegion, proved with C3). -/
theorem dirty_flag_per_transition (draft : DraftState) (disabled : Bool)
    (m : DrawingMode) (flood : Bool) (v : Int) (current : LabelAssignment) :
    (setModeCommand draft disabled m).dirty = draft.dirty ∧
    (setDrawingMode draft m).dirty = draft.dirty ∧
    (setFlood draft flood).dirty = draft.dirty ∧
    (setThreshold draft v).dirty = draft.dirty ∧
    (setRadius draft v).dirty = draft.dirty ∧
    (setLabels draft current).dirty = true := by
  refine ⟨?_, rfl, rfl, rfl, rfl, rfl⟩
  unfold setModeCommand
  split <;> rfl

/-- C7: the mode-switch command is a no-op whenever a region is active (the
selector is disabled), and a successful switch from Idle changes only
`drawing.mode`: flood, threshold, radius, the active slot, the labels, and
the dirty flag are untouched. -/
theorem setMode_gating (draft : DraftState) (disabled : Bool) (m : DrawingMode) :
    (draft.drawing.active.isSome = true →
      setModeCommand draft disabled m = draft) ∧
    (draft.drawing.active = none →
      (setModeCommand draft false m).drawing.mode = m ∧
      (setModeCommand draft false m).drawing.flood = draft.drawing.flood ∧
      (setModeCommand draft false m).drawing.threshold = draft.drawing.threshold ∧
      (setModeCommand draft false m).drawing.radius = draft.drawing.radius ∧
      (setModeCommand draft false m).drawing.active = draft.drawing.active ∧
      (setModeCommand draft false m).labels = draft.labels ∧
      (setModeCommand draft false m).dirty = draft.dirty) := by
  constructor
  · intro h
    simp [setModeCommand, modeSelectorDisabled, h]
  · intro h
    simp [setModeCommand, modeSelectorDisabled, setDrawingMode, h]

/-- Witness for C7: switching while the concrete readonly region is active
is a no-op, and switching the concrete idle draft to masks sets the mode
while preserving the threshold. -/
theorem setMode_gating_witness :
    setModeCommand draftROActive false DrawingMode.masks = draftROActive ∧
    (setModeCommand draftCleanIdle false DrawingMode.masks).drawing.mode =
      DrawingMode.masks ∧
    (setModeCommand draftCleanIdle false DrawingMode.masks).drawing.threshold =
      draftCleanIdle.drawing.threshold :=
  ⟨(setMode_gating draftROActive false DrawingMode.masks).1 rfl,
    ((setMode_gating draftCleanIdle false DrawingMode.masks).2 rfl).1,
    ((setMode_gating draftCleanIdle false DrawingMode.masks).2 rfl).2.2.1⟩

end QSL
